import Mathlib

/-!
Shallow embedding of the kronthor admin pages (list-load-filter-paginate
CRUD recipe) and proofs about the claims concerning it.

Strings are modelled as `List Char`; JavaScript's `toLowerCase`, `trim`
and `includes` become `lower`, `trim` and `containsSub` below.
-/

namespace Kronthor

/-- Strings of the TypeScript source, modelled as lists of characters. -/
abbrev Str := List Char

/-- JS `s.toLowerCase()` (ASCII, which covers all data in the pages). -/
def lower (s : Str) : Str := s.map Char.toLower

/-- JS `s.trim()`: strip whitespace from both ends. -/
def trim (s : Str) : Str :=
  ((s.dropWhile Char.isWhitespace).reverse.dropWhile Char.isWhitespace).reverse

/-- JS `hay.includes(needle)`: substring containment. -/
def containsSub (needle : Str) : Str → Bool
  | [] => needle.isEmpty
  | c :: rest => needle.isPrefixOf (c :: rest) || containsSub needle rest

/-- The `role` enum of an exercise-muscle association row. -/
inductive Role where
  | primary : Role
  | secondary : Role
deriving DecidableEq

/-- The string stored in the `role` column ("primary" / "secondary"). -/
def Role.str : Role → Str
  | .primary => "primary".toList
  | .secondary => "secondary".toList

/-- The flattened display row of the exercise-muscle page
(`ExerciseMuscleRecord` in `exercise-muscle/page.tsx`). -/
structure ExerciseMuscleRecord where
  id : Nat
  exercise_id : Str
  muscle_id : Int
  role : Role
  exercise_name : Str
  muscle_name : Str
  group_name : Str
deriving DecidableEq

/-- The filter predicate of the exercise-muscle page's `filtered` memo,
applied to the already trimmed-and-lowercased query `q`:
`!q || item.exercise_name.toLowerCase().includes(q) || ...`. -/
def rowMatches (q : Str) (item : ExerciseMuscleRecord) : Bool :=
  q.isEmpty ||
  containsSub q (lower item.exercise_name) ||
  containsSub q (lower item.muscle_name) ||
  containsSub q (lower item.group_name) ||
  containsSub q (lower (Role.str item.role))

/-- The `filtered` memo of the exercise-muscle page:
`const q = query.trim().toLowerCase(); return records.filter(...)`. -/
def filteredRecords (records : List ExerciseMuscleRecord) (query : Str) :
    List ExerciseMuscleRecord :=
  records.filter (rowMatches (lower (trim query)))

/-- The spec's wording of a match, for comparison with the code: the row
matches the query `q` itself (no trimming) case-insensitively as a
substring on at least one designated display field. -/
def matchesRawQuery (q : Str) (item : ExerciseMuscleRecord) : Bool :=
  containsSub (lower q) (lower item.exercise_name) ||
  containsSub (lower q) (lower item.muscle_name) ||
  containsSub (lower q) (lower item.group_name) ||
  containsSub (lower q) (lower (Role.str item.role))

/-- The constant `PAGE_SIZE = 10` of the exercise-muscle and equipment pages. -/
def PAGE_SIZE : Nat := 10

/-- JS `Math.ceil(n / pageSize)` for natural `n` and positive `pageSize`. -/
def jsCeilDiv (n pageSize : Nat) : Nat := (n + pageSize - 1) / pageSize

/-- The `paginated` memo: `filtered.slice(start, start + PAGE_SIZE)` with
`start = (page - 1) * PAGE_SIZE`. -/
def paginatedAt {α : Type} (filtered : List α) (pageSize page : Nat) : List α :=
  (filtered.drop ((page - 1) * pageSize)).take pageSize

/-- The memo `totalPages = Math.max(1, Math.ceil(filtered.length / PAGE_SIZE))`. -/
def totalPages {α : Type} (filtered : List α) (pageSize : Nat) : Nat :=
  max 1 (jsCeilDiv filtered.length pageSize)

/-- The memo `rangeStart = filtered.length ? (page - 1) * PAGE_SIZE + 1 : 0`. -/
def rangeStart {α : Type} (filtered : List α) (pageSize page : Nat) : Nat :=
  if filtered.length = 0 then 0 else (page - 1) * pageSize + 1

/-- The memo `rangeEnd = filtered.length ? Math.min(page * PAGE_SIZE, filtered.length) : 0`. -/
def rangeEnd {α : Type} (filtered : List α) (pageSize page : Nat) : Nat :=
  if filtered.length = 0 then 0 else min (page * pageSize) filtered.length

/-- The first `k` successive pages of `l`, each a slice of `pageSize` rows. -/
def pagesFrom {α : Type} (pageSize : Nat) : Nat → List α → List (List α)
  | 0, _ => []
  | k + 1, l => l.take pageSize :: pagesFrom pageSize k (l.drop pageSize)

/-- All `⌈|filtered| / pageSize⌉` pages of the filtered list, in order. -/
def pages {α : Type} (filtered : List α) (pageSize : Nat) : List (List α) :=
  pagesFrom pageSize (jsCeilDiv filtered.length pageSize) filtered

/-- A record of the 23-row pagination scenario. -/
def scenarioRecord (n : Nat) : ExerciseMuscleRecord :=
  { id := n + 1
    exercise_id := "e".toList
    muscle_id := 1
    role := Role.primary
    exercise_name := "press".toList
    muscle_name := "abs".toList
    group_name := "core".toList }

/-- The 23 loaded records of the pagination scenario. -/
def scenarioRecords : List ExerciseMuscleRecord := (List.range 23).map scenarioRecord

/-- The client-side list state of a page: loaded rows, query, current page. -/
structure ListState where
  records : List ExerciseMuscleRecord
  query : Str
  page : Nat
deriving DecidableEq

/-- The `totalPages` value as recomputed from the current state. -/
def currentTotalPages (s : ListState) : Nat :=
  totalPages (filteredRecords s.records s.query) PAGE_SIZE

/-- The `useEffect` on `[totalPages]`:
`setPage((prev) => Math.min(prev, totalPages))`. -/
def clampPage (s : ListState) : ListState :=
  { s with page := min s.page (currentTotalPages s) }

/-- Changing the query: the `useEffect` on `[query]` runs `setPage(1)`, and
the clamp effect re-runs against the new total. -/
def setQueryAction (s : ListState) (q : Str) : ListState :=
  clampPage { s with query := q, page := 1 }

/-- Replacing the loaded rows (e.g. after a delete); the clamp effect
re-runs against the new total. -/
def setRecordsAction (s : ListState) (rs : List ExerciseMuscleRecord) : ListState :=
  clampPage { s with records := rs }

/-- The "Siguiente" button: `setPage((prev) => Math.min(totalPages, prev + 1))`. -/
def nextPageAction (s : ListState) : ListState :=
  { s with page := min (s.page + 1) (currentTotalPages s) }

/-- The "Anterior" button: `setPage((prev) => Math.max(1, prev - 1))`. -/
def prevPageAction (s : ListState) : ListState :=
  { s with page := max 1 (s.page - 1) }

/-- The user actions that affect the list state. -/
inductive UserAction where
  | setQuery (q : Str)
  | setRecords (rs : List ExerciseMuscleRecord)
  | nextPage
  | prevPage

/-- One user action applied to the state. -/
def stepAction (s : ListState) : UserAction → ListState
  | .setQuery q => setQueryAction s q
  | .setRecords rs => setRecordsAction s rs
  | .nextPage => nextPageAction s
  | .prevPage => prevPageAction s

/-- The state on mount: no rows loaded yet, empty query, page 1. -/
def initialState : ListState := { records := [], query := [], page := 1 }

/-- The state after a sequence of user actions from the initial state. -/
def runActions (acts : List UserAction) : ListState := acts.foldl stepAction initialState

/-- A row of a many-to-many join table (`exercise_equipment`,
`exercise_movement_pattern`, `exercise_muscle` in the sync path). -/
structure JoinRow where
  exercise_id : Str
  value : Int
deriving DecidableEq

/-- The call `supabase.from(table).delete().eq("exercise_id", exerciseId)`. -/
def deleteParentRows (db : List JoinRow) (eid : Str) : List JoinRow :=
  db.filter (fun r => !decide (r.exercise_id = eid))

/-- The `syncRelation` helper of the exercise page: delete all the parent's join
rows, then — only when `values` is non-empty — insert one row per value. -/
def syncRelation (db : List JoinRow) (eid : Str) (values : List Int) : List JoinRow :=
  let afterDelete := deleteParentRows db eid
  if values.isEmpty then afterDelete
  else afterDelete ++ values.map (fun v => { exercise_id := eid, value := v })

/-- The `syncRelation` helper interrupted by a failure between the delete and the
insert: only the delete has taken effect. -/
def syncRelationFailedAfterDelete (db : List JoinRow) (eid : Str) : List JoinRow :=
  deleteParentRows db eid

/-- The values of the parent's join rows, as a query of the join table. -/
def parentRows (db : List JoinRow) (eid : Str) : List Int :=
  (db.filter (fun r => decide (r.exercise_id = eid))).map JoinRow.value

/-- The validated form values of the exercise-muscle dialog. -/
structure FormValues where
  exercise_id : Str
  muscle_id : Int
  role : Role
deriving DecidableEq

/-- A stored row of the `exercise_muscle` table. -/
structure EMRow where
  id : Nat
  exercise_id : Str
  muscle_id : Int
  role : Role
deriving DecidableEq

/-- The predicate of the duplicate count query:
`.eq("exercise_id", ...).eq("muscle_id", ...).eq("role", ...)`. -/
def matchesTriple (v : FormValues) (r : EMRow) : Bool :=
  decide (r.exercise_id = v.exercise_id) &&
  decide (r.muscle_id = v.muscle_id) &&
  decide (r.role = v.role)

/-- The count returned by the duplicate query, including the
`.neq("id", editing.id)` self-exclusion when editing. -/
def countDuplicates (db : List EMRow) (v : FormValues) (editingId : Option Nat) : Nat :=
  (db.filter (fun r =>
    matchesTriple v r &&
    (match editingId with
     | some i => !decide (r.id = i)
     | none => true))).length

/-- The `checkDuplicate` result from the count query's response: a query
error yields `true` (blocking the submission), otherwise `count > 0`. -/
def checkDuplicate (countRes : Except Unit Nat) : Bool :=
  match countRes with
  | .error _ => true
  | .ok c => decide (0 < c)

/-- The toast notifications the exercise-muscle submission can emit. -/
inductive Toast where
  | errCouldNotValidate
  | errAlreadyExists
  | errUpdate
  | errCreate
  | okUpdated
  | okCreated
deriving DecidableEq

/-- The toast emitted inside `checkDuplicate` when the count query errors. -/
def validateToasts (countRes : Except Unit Nat) : List Toast :=
  match countRes with
  | .error _ => [Toast.errCouldNotValidate]
  | .ok _ => []

/-- The upstream join representation: the related side arrives as `null` /
`undefined`, a single object, or a collection. -/
inductive JoinValue (α : Type) where
  | null : JoinValue α
  | obj : α → JoinValue α
  | arr : List α → JoinValue α
deriving DecidableEq

/-- The `normalizeRelation` helper: `if (!value) return undefined;`
`return Array.isArray(value) ? value[0] : value;`. -/
def normalizeRelation {α : Type} : JoinValue α → Option α
  | .null => none
  | .obj v => some v
  | .arr l => l.head?

/-- The joined `group` sub-object. -/
structure JoinedGroup where
  id : Int
  name : Str
deriving DecidableEq

/-- The joined `muscle` sub-object (with its nested `group`). -/
structure JoinedMuscle where
  id : Int
  name : Str
  group : JoinValue JoinedGroup
deriving DecidableEq

/-- The joined `exercise` sub-object (only `id, name_es` are selected). -/
structure JoinedExercise where
  id : Str
  name_es : Str
deriving DecidableEq

/-- A raw row returned by the joined select on `exercise_muscle`. -/
structure JoinedRow where
  id : Nat
  role : Role
  exercise : JoinValue JoinedExercise
  muscle : JoinValue JoinedMuscle
deriving DecidableEq

/-- The `mapRecord` helper: flatten a joined row into the display shape, with
`normalizeRelation` on each related side and empty-string / zero fallbacks. -/
def mapRecord (item : JoinedRow) : ExerciseMuscleRecord :=
  let exercise := normalizeRelation item.exercise
  let muscle := normalizeRelation item.muscle
  let group :=
    match muscle with
    | some m => normalizeRelation m.group
    | none => none
  { id := item.id
    role := item.role
    exercise_id := (exercise.map JoinedExercise.id).getD []
    exercise_name := (exercise.map JoinedExercise.name_es).getD []
    muscle_id := (muscle.map JoinedMuscle.id).getD 0
    muscle_name := (muscle.map JoinedMuscle.name).getD []
    group_name := (group.map JoinedGroup.name).getD [] }

/-- The page state touched by the exercise-muscle `submit` handler. -/
structure EMPageState where
  records : List ExerciseMuscleRecord
  dialogOpen : Bool
  editing : Option ExerciseMuscleRecord
  toasts : List Toast
deriving DecidableEq

/-- Which write (if any) the submission issued against the store. -/
inductive StoreWrite where
  | noWrite : StoreWrite
  | updated : Nat → FormValues → StoreWrite
  | inserted : FormValues → StoreWrite
deriving DecidableEq

/-- The exercise-muscle `submit` handler: duplicate guard first (rejecting
with "La combinación ya existe" when it reports true), then update-by-id
or insert, patching the local list and closing the dialog only on success.
`countRes` is the duplicate count query's response and `storeRes` the
write's response (the returned joined row). -/
def emSubmit (s : EMPageState) (values : FormValues) (countRes : Except Unit Nat)
    (storeRes : Except Unit JoinedRow) : EMPageState × StoreWrite :=
  let toasts0 := validateToasts countRes ++ s.toasts
  if checkDuplicate countRes then
    ({ s with toasts := Toast.errAlreadyExists :: toasts0 }, StoreWrite.noWrite)
  else
    match s.editing with
    | some editingRec =>
      match storeRes with
      | .error _ => ({ s with toasts := Toast.errUpdate :: toasts0 }, StoreWrite.noWrite)
      | .ok data =>
          ({ records := s.records.map (fun item =>
               if item.id = editingRec.id then mapRecord data else item)
             dialogOpen := false
             editing := none
             toasts := Toast.okUpdated :: toasts0 },
           StoreWrite.updated editingRec.id values)
    | none =>
      match storeRes with
      | .error _ => ({ s with toasts := Toast.errCreate :: toasts0 }, StoreWrite.noWrite)
      | .ok data =>
          ({ records := mapRecord data :: s.records
             dialogOpen := false
             editing := none
             toasts := Toast.okCreated :: toasts0 },
           StoreWrite.inserted values)

/-- The `relations` array built by `submitMulti`: one `primary` row per
selected primary muscle, then one `secondary` row per selected secondary. -/
def submitMultiRelations (eid : Str) (primaries secondaries : List Int) : List FormValues :=
  primaries.map (fun m => { exercise_id := eid, muscle_id := m, role := Role.primary }) ++
  secondaries.map (fun m => { exercise_id := eid, muscle_id := m, role := Role.secondary })

/-- The store assigning consecutive generated ids to a batch insert. -/
def assignIds (firstId : Nat) : List FormValues → List EMRow
  | [] => []
  | v :: rest =>
      { id := firstId
        exercise_id := v.exercise_id
        muscle_id := v.muscle_id
        role := v.role } :: assignIds (firstId + 1) rest

/-- The `submitMulti` handler's effect on the `exercise_muscle` table:
it rejects only when no exercise or no muscle is selected, and otherwise
inserts the built relations directly — no duplicate count query is issued.
Returns the table afterwards and whether an insert was issued. -/
def submitMulti (db : List EMRow) (eid : Str) (primaries secondaries : List Int)
    (firstId : Nat) : List EMRow × Bool :=
  if eid.isEmpty || (primaries.isEmpty && secondaries.isEmpty) then (db, false)
  else (db ++ assignIds firstId (submitMultiRelations eid primaries secondaries), true)

/-- A row of the `equipment` table (the simple entity page). -/
structure Equipment where
  id : Nat
  name : Str
deriving DecidableEq

/-- The validated form values of the equipment dialog. -/
structure EqFormValues where
  id : Option Nat
  name : Str
deriving DecidableEq

/-- The page state touched by the equipment `submit` handler. -/
structure EqPageState where
  items : List Equipment
  dialogOpen : Bool
  editing : Option Equipment
deriving DecidableEq

/-- The equipment page's `submit` handler: update-by-id patching the local
item in place (`{ ...p, ...values }`) or insert prepending the returned
row — then `setOpen(false)` unconditionally, error or not, with no toast. -/
def equipmentSubmit (s : EqPageState) (values : EqFormValues)
    (storeRes : Except Unit Equipment) : EqPageState :=
  let s' :=
    match s.editing with
    | some e =>
      match storeRes with
      | .error _ => s
      | .ok _ =>
          { s with items := s.items.map (fun (p : Equipment) =>
              if p.id = e.id then { id := values.id.getD p.id, name := values.name } else p) }
    | none =>
      match storeRes with
      | .error _ => s
      | .ok data => { s with items := data :: s.items }
  { s' with dialogOpen := false }

/-- The bulk-create dialog's muscle selections. -/
structure MuscleSelection where
  primary : List Int
  secondary : List Int
deriving DecidableEq

/-- The `handlePrimaryToggle` handler: add/remove from the primary selection, and
always remove the muscle from the secondary selection. -/
def handlePrimaryToggle (s : MuscleSelection) (muscleId : Int) (checked : Bool) :
    MuscleSelection :=
  { primary :=
      if checked then s.primary ++ [muscleId]
      else s.primary.filter (fun i => !decide (i = muscleId))
    secondary := s.secondary.filter (fun i => !decide (i = muscleId)) }

/-- The `handleSecondaryToggle` handler: add/remove from the secondary selection, and
always remove the muscle from the primary selection. -/
def handleSecondaryToggle (s : MuscleSelection) (muscleId : Int) (checked : Bool) :
    MuscleSelection :=
  { secondary :=
      if checked then s.secondary ++ [muscleId]
      else s.secondary.filter (fun i => !decide (i = muscleId))
    primary := s.primary.filter (fun i => !decide (i = muscleId)) }

/-- A checkbox toggle in the bulk-create dialog. -/
inductive ToggleAction where
  | togglePrimary (muscleId : Int) (checked : Bool)
  | toggleSecondary (muscleId : Int) (checked : Bool)

/-- One toggle applied to the selection state. -/
def stepToggle (s : MuscleSelection) : ToggleAction → MuscleSelection
  | .togglePrimary m c => handlePrimaryToggle s m c
  | .toggleSecondary m c => handleSecondaryToggle s m c

/-- The selections after a sequence of toggles from the empty selection. -/
def runToggles (acts : List ToggleAction) : MuscleSelection :=
  acts.foldl stepToggle { primary := [], secondary := [] }

/-- Disjointness of the two selections. -/
def selDisjoint (s : MuscleSelection) : Prop :=
  ∀ x, x ∈ s.primary → x ∉ s.secondary

/-- Invariant of the list state: the current page stays within the range
1..totalPages. -/
def pageInvariant (s : ListState) : Prop :=
  1 ≤ s.page ∧ s.page ≤ currentTotalPages s

/-- A sample display row used for concrete checks. -/
def c1Record : ExerciseMuscleRecord :=
  { id := 1
    exercise_id := "e1".toList
    muscle_id := 1
    role := Role.primary
    exercise_name := "press".toList
    muscle_name := "abs".toList
    group_name := "core".toList }

/-- A query with surrounding whitespace. -/
def c1Query : Str := " a ".toList

/-- A list state sitting on page 3 of the scenario rows. -/
def c3State : ListState := { records := scenarioRecords, query := [], page := 3 }

/-- A sample join table with rows for two parents. -/
def c4Db : List JoinRow :=
  [{ exercise_id := "ex1".toList, value := 1 },
   { exercise_id := "ex2".toList, value := 9 },
   { exercise_id := "ex1".toList, value := 4 }]

/-- The parent id used in the sync checks. -/
def c4Eid : Str := "ex1".toList

/-- An `exercise_muscle` table holding one (exerciseA, muscleB, primary) row. -/
def c5Db : List EMRow :=
  [{ id := 1, exercise_id := "ea".toList, muscle_id := 2, role := Role.primary }]

/-- The form values of that same (exercise, muscle, role) triple. -/
def c5Values : FormValues :=
  { exercise_id := "ea".toList, muscle_id := 2, role := Role.primary }

/-- The display row of the stored association, as shown in the table. -/
def c5EditRecord : ExerciseMuscleRecord :=
  { id := 1
    exercise_id := "ea".toList
    muscle_id := 2
    role := Role.primary
    exercise_name := "press".toList
    muscle_name := "abs".toList
    group_name := "core".toList }

/-- The page state while editing that row. -/
def c5State : EMPageState :=
  { records := [c5EditRecord], dialogOpen := true, editing := some c5EditRecord, toasts := [] }

/-- A joined row as the store returns it after a successful write. -/
def c5Joined : JoinedRow :=
  { id := 1
    role := Role.primary
    exercise := JoinValue.obj { id := "ea".toList, name_es := "press".toList }
    muscle := JoinValue.arr
      [{ id := 2, name := "abs".toList, group := JoinValue.obj { id := 3, name := "core".toList } }] }

/-- An equipment row. -/
def c6Item : Equipment := { id := 1, name := "barra".toList }

/-- The equipment page state while editing that row, dialog open. -/
def c6State : EqPageState :=
  { items := [c6Item], dialogOpen := true, editing := some c6Item }

/-- Submitted equipment form values. -/
def c6Values : EqFormValues := { id := some 1, name := "banco".toList }

/-- A two-item equipment list used for the update frame checks. -/
def c7Items : List Equipment :=
  [{ id := 2, name := "banda".toList }, { id := 3, name := "soga".toList }]

/-- Submitted values editing equipment id 2. -/
def c7Values : EqFormValues := { id := some 2, name := "disco".toList }

theorem containsSub_nil_needle (hay : Str) : containsSub [] hay = true := by
  cases hay with
  | nil => rfl
  | cons c rest => simp [containsSub, List.isPrefixOf]

theorem mem_filteredRecords_matches (records : List ExerciseMuscleRecord)
    (query : Str) (r : ExerciseMuscleRecord)
    (hr : r ∈ filteredRecords records query) :
    matchesRawQuery (trim query) r = true := by
  have hmem := List.mem_filter.mp hr
  have hmatch : rowMatches (lower (trim query)) r = true := hmem.2
  unfold rowMatches at hmatch
  unfold matchesRawQuery
  by_cases hq : (lower (trim query)).isEmpty = true
  · have hqnil : lower (trim query) = [] := by
      cases h : lower (trim query) with
      | nil => rfl
      | cons c rest => rw [h] at hq; simp [List.isEmpty] at hq
    rw [hqnil]
    simp [containsSub_nil_needle]
  · have hq' : (lower (trim query)).isEmpty = false := by
      exact Bool.not_eq_true _ ▸ Bool.of_not_eq_true hq
    simp only [hq', Bool.false_or] at hmatch
    exact hmatch

theorem pagesFrom_length {α : Type} (pageSize k : Nat) (l : List α) :
    (pagesFrom pageSize k l).length = k := by
  induction k generalizing l with
  | zero => rfl
  | succ k ih => simp [pagesFrom, ih]

theorem pagesFrom_join {α : Type} (pageSize k : Nat) (l : List α)
    (h : l.length ≤ k * pageSize) : (pagesFrom pageSize k l).flatten = l := by
  induction k generalizing l with
  | zero =>
      have hnil : l = [] := List.length_eq_zero.mp (Nat.le_zero.mp (by simpa using h))
      simp [hnil, pagesFrom]
  | succ k ih =>
      have hmul : (k + 1) * pageSize = k * pageSize + pageSize := Nat.succ_mul k pageSize
      have hdrop : (l.drop pageSize).length ≤ k * pageSize := by
        rw [List.length_drop]
        omega
      simp only [pagesFrom, List.flatten_cons]
      rw [ih (l.drop pageSize) hdrop]
      exact List.take_append_drop pageSize l

theorem pagesFrom_mem_length {α : Type} (pageSize k : Nat) (l : List α)
    (pg : List α) (hpg : pg ∈ pagesFrom pageSize k l) : pg.length ≤ pageSize := by
  induction k generalizing l with
  | zero => simp [pagesFrom] at hpg
  | succ k ih =>
      simp only [pagesFrom, List.mem_cons] at hpg
      rcases hpg with h | h
      · subst h
        simp only [List.length_take]
        omega
      · exact ih (l.drop pageSize) h

theorem pagesFrom_getElem (pageSize k : Nat) {α : Type} (l : List α) (i : Nat)
    (hi : i < k) :
    (pagesFrom pageSize k l)[i]? = some ((l.drop (i * pageSize)).take pageSize) := by
  induction k generalizing l i with
  | zero => omega
  | succ k ih =>
      cases i with
      | zero => simp [pagesFrom]
      | succ i =>
          have hmul : (i + 1) * pageSize = i * pageSize + pageSize := Nat.succ_mul i pageSize
          simp only [pagesFrom, List.getElem?_cons_succ]
          rw [ih (l.drop pageSize) i (by omega)]
          rw [List.drop_drop, hmul, Nat.add_comm (i * pageSize) pageSize]

theorem le_jsCeilDiv_mul (n pageSize : Nat) (h : 0 < pageSize) :
    n ≤ jsCeilDiv n pageSize * pageSize := by
  unfold jsCeilDiv
  cases n with
  | zero => simp
  | succ m =>
      have h1 : m + 1 + pageSize - 1 = m + pageSize := by omega
      rw [h1, Nat.add_div_right m h]
      have h2 := Nat.div_add_mod m pageSize
      have h3 := Nat.mod_lt m h
      have h4 : (m / pageSize + 1) * pageSize = m / pageSize * pageSize + pageSize :=
        Nat.succ_mul _ _
      have h5 : m / pageSize * pageSize = pageSize * (m / pageSize) := Nat.mul_comm _ _
      omega

theorem filteredRecords_nil_query (records : List ExerciseMuscleRecord) :
    filteredRecords records [] = records := by
  unfold filteredRecords
  apply List.filter_eq_self.mpr
  intro a _
  rfl

/-- C1 (amended): the client-side filter returns a subsequence of the
loaded rows, and every returned row matches the whitespace-trimmed query
case-insensitively as a substring on at least one designated display
field. -/
theorem filtered_sublist_and_matches_trimmed
    (records : List ExerciseMuscleRecord) (query : Str) (r : ExerciseMuscleRecord)
    (hr : r ∈ filteredRecords records query) :
    (filteredRecords records query).Sublist records ∧
    matchesRawQuery (trim query) r = true :=
  ⟨List.filter_sublist records, mem_filteredRecords_matches records query r hr⟩

/-- C1 witness: a concrete row returned by the filter for the query "abs"
indeed matches the trimmed query on a designated field. -/
theorem filtered_sublist_and_matches_trimmed_witness :
    (filteredRecords [c1Record] ("abs".toList)).Sublist [c1Record] ∧
    matchesRawQuery (trim ("abs".toList)) c1Record = true :=
  filtered_sublist_and_matches_trimmed [c1Record] ("abs".toList) c1Record (by decide)

/-- C1 counterexample: for the query " a " (surrounding whitespace), the
filter returns a row that does not contain " a " itself on any designated
field — only the trimmed query "a" — so the claim as stated (matching the
query string itself) fails. -/
theorem filter_raw_query_counterexample :
    c1Record ∈ filteredRecords [c1Record] c1Query ∧
    matchesRawQuery c1Query c1Record = false := by
  decide

/-- C2: pagination divides the filtered list into ⌈|F|/P⌉ pages, each of
size at most P, whose in-order concatenation is exactly F, the i-th page
being the `paginated` slice at page i; concretely, 23 records at page
size 10 with the empty query give 3 total pages, page 1 holding records
1–10 with the range display reading 1-10 of 23. -/
theorem pagination_partitions_and_scenario
    (F : List ExerciseMuscleRecord) (pageSize : Nat) (hP : 0 < pageSize) :
    (pages F pageSize).length = jsCeilDiv F.length pageSize ∧
    (∀ pg ∈ pages F pageSize, pg.length ≤ pageSize) ∧
    (pages F pageSize).flatten = F ∧
    (∀ i, i < jsCeilDiv F.length pageSize →
      (pages F pageSize)[i]? = some (paginatedAt F pageSize (i + 1))) ∧
    filteredRecords scenarioRecords [] = scenarioRecords ∧
    scenarioRecords.length = 23 ∧
    totalPages scenarioRecords PAGE_SIZE = 3 ∧
    paginatedAt scenarioRecords PAGE_SIZE 1 = scenarioRecords.take 10 ∧
    rangeStart scenarioRecords PAGE_SIZE 1 = 1 ∧
    rangeEnd scenarioRecords PAGE_SIZE 1 = 10 := by
  refine ⟨pagesFrom_length pageSize _ F,
    fun pg hpg => pagesFrom_mem_length pageSize _ F pg hpg,
    pagesFrom_join pageSize _ F (le_jsCeilDiv_mul F.length pageSize hP),
    fun i hi => ?_,
    filteredRecords_nil_query scenarioRecords,
    ?_, ?_, ?_, ?_, ?_⟩
  · rw [pages, pagesFrom_getElem pageSize _ F i hi]
    have hsub : i + 1 - 1 = i := by omega
    rw [paginatedAt, hsub]
  · decide
  · decide
  · decide
  · decide
  · decide

/-- C2 witness: for the concrete scenario list at page size 10, the pages
concatenate back to the whole filtered list. -/
theorem pagination_partitions_and_scenario_witness :
    (pages scenarioRecords 10).flatten = scenarioRecords :=
  (pagination_partitions_and_scenario scenarioRecords 10 (by decide)).2.2.1

theorem one_le_currentTotalPages (s : ListState) : 1 ≤ currentTotalPages s :=
  Nat.le_max_left 1 _

theorem clampPage_invariant (s : ListState) (h1 : 1 ≤ s.page) :
    pageInvariant (clampPage s) := by
  have hT := one_le_currentTotalPages s
  constructor
  · show 1 ≤ min s.page (currentTotalPages s)
    omega
  · show min s.page (currentTotalPages s) ≤ currentTotalPages (clampPage s)
    have heq : currentTotalPages (clampPage s) = currentTotalPages s := rfl
    rw [heq]
    omega

theorem setQueryAction_page (s : ListState) (q : Str) :
    (setQueryAction s q).page = 1 := by
  unfold setQueryAction clampPage
  have hT := one_le_currentTotalPages { s with query := q, page := 1 }
  simp only []
  omega

theorem stepAction_invariant (s : ListState) (a : UserAction)
    (h : pageInvariant s) : pageInvariant (stepAction s a) := by
  obtain ⟨h1, h2⟩ := h
  cases a with
  | setQuery q => exact clampPage_invariant _ (by exact Nat.le_refl 1)
  | setRecords rs => exact clampPage_invariant _ h1
  | nextPage =>
      have hT : currentTotalPages (nextPageAction s) = currentTotalPages s := rfl
      constructor
      · show 1 ≤ min (s.page + 1) (currentTotalPages s)
        have := one_le_currentTotalPages s
        omega
      · show min (s.page + 1) (currentTotalPages s) ≤ currentTotalPages (nextPageAction s)
        rw [hT]
        omega
  | prevPage =>
      have hT : currentTotalPages (prevPageAction s) = currentTotalPages s := rfl
      constructor
      · show 1 ≤ max 1 (s.page - 1)
        omega
      · show max 1 (s.page - 1) ≤ currentTotalPages (prevPageAction s)
        rw [hT]
        have := one_le_currentTotalPages s
        omega

theorem foldl_stepAction_invariant (acts : List UserAction) (s : ListState)
    (h : pageInvariant s) : pageInvariant (acts.foldl stepAction s) := by
  induction acts generalizing s with
  | nil => exact h
  | cons a rest ih => exact ih (stepAction s a) (stepAction_invariant s a h)

/-- C3: changing the filter query resets the current page to 1; when the
filtered set shrinks so that the current page exceeds the new last page,
the page is clamped down to the new last page; and along every sequence
of user actions the page stays within 1..totalPages. -/
theorem query_reset_and_page_clamp
    (s : ListState) (q : Str) (rs : List ExerciseMuscleRecord)
    (acts : List UserAction) :
    (setQueryAction s q).page = 1 ∧
    (currentTotalPages { s with records := rs } < s.page →
      (setRecordsAction s rs).page = currentTotalPages { s with records := rs }) ∧
    pageInvariant (runActions acts) := by
  refine ⟨setQueryAction_page s q, fun hlt => ?_, ?_⟩
  · unfold setRecordsAction clampPage
    simp only []
    have heq : currentTotalPages { s with records := rs, page := s.page } =
        currentTotalPages { s with records := rs } := rfl
    omega
  · apply foldl_stepAction_invariant
    constructor
    · exact Nat.le_refl 1
    · show (1 : Nat) ≤ currentTotalPages initialState
      exact one_le_currentTotalPages initialState

/-- C3 witness: from page 3 of the scenario rows, clearing the records
clamps the page to the single remaining page, and a query change resets
the page to 1. -/
theorem query_reset_and_page_clamp_witness :
    (setQueryAction c3State ("x".toList)).page = 1 ∧
    (setRecordsAction c3State []).page = currentTotalPages { c3State with records := [] } := by
  refine ⟨(query_reset_and_page_clamp c3State ("x".toList) [] []).1, ?_⟩
  exact (query_reset_and_page_clamp c3State ("x".toList) [] []).2.1 (by decide)

theorem parentRows_deleteParentRows (db : List JoinRow) (eid : Str) :
    parentRows (deleteParentRows db eid) eid = [] := by
  unfold parentRows deleteParentRows
  rw [List.filter_filter]
  have hfalse : ∀ r : JoinRow,
      (decide (r.exercise_id = eid) && !decide (r.exercise_id = eid)) = false := by
    intro r
    cases h : decide (r.exercise_id = eid) <;> simp [h]
  have : db.filter (fun r => decide (r.exercise_id = eid) && !decide (r.exercise_id = eid)) = [] := by
    apply List.filter_eq_nil_iff.mpr
    intro a _
    simp [hfalse a]
  rw [show (fun r : JoinRow => decide (r.exercise_id = eid) && !decide (r.exercise_id = eid)) =
      fun r : JoinRow => !decide (r.exercise_id = eid) && decide (r.exercise_id = eid) from by
    funext r
    cases h : decide (r.exercise_id = eid) <;> simp [h]]
  rw [show db.filter (fun r : JoinRow => !decide (r.exercise_id = eid) && decide (r.exercise_id = eid)) = [] from by
    apply List.filter_eq_nil_iff.mpr
    intro a _
    cases h : decide (a.exercise_id = eid) <;> simp [h]]
  rfl

theorem parentRows_inserted (eid : Str) (values : List Int) :
    parentRows (values.map (fun v => ({ exercise_id := eid, value := v } : JoinRow))) eid
      = values := by
  induction values with
  | nil => rfl
  | cons v vs ih =>
      unfold parentRows at ih ⊢
      simp [List.filter_cons, ih]

theorem parentRows_append (a b : List JoinRow) (eid : Str) :
    parentRows (a ++ b) eid = parentRows a eid ++ parentRows b eid := by
  unfold parentRows
  rw [List.filter_append, List.map_append]

/-- C4: the relation sync deletes every join row of the parent and then,
exactly when the target list is non-empty, inserts one row per target id;
after a fully successful sync the parent's join rows are exactly the
target ids, and a failure between the delete and the insert leaves the
parent with zero associations. -/
theorem syncRelation_replace_all (db : List JoinRow) (eid : Str) (values : List Int) :
    parentRows (syncRelation db eid values) eid = values ∧
    (values = [] → syncRelation db eid values = deleteParentRows db eid) ∧
    parentRows (syncRelationFailedAfterDelete db eid) eid = [] := by
  refine ⟨?_, fun h => ?_, parentRows_deleteParentRows db eid⟩
  · unfold syncRelation
    cases values with
    | nil => simpa using parentRows_deleteParentRows db eid
    | cons v vs =>
        rw [if_neg (by simp)]
        rw [parentRows_append, parentRows_deleteParentRows, parentRows_inserted]
        rfl
  · subst h
    rfl

/-- C4 witness: syncing parent "ex1" of the sample table to [5, 7] leaves
exactly [5, 7] as its join rows, and an empty target issues no insert. -/
theorem syncRelation_replace_all_witness :
    parentRows (syncRelation c4Db c4Eid [5, 7]) c4Eid = [5, 7] ∧
    syncRelation c4Db c4Eid [] = deleteParentRows c4Db c4Eid ∧
    parentRows (syncRelationFailedAfterDelete c4Db c4Eid) c4Eid = [] :=
  ⟨(syncRelation_replace_all c4Db c4Eid [5, 7]).1,
   (syncRelation_replace_all c4Db c4Eid []).2.1 rfl,
   (syncRelation_replace_all c4Db c4Eid [5, 7]).2.2⟩

/-- C5 counterexample: with (exerciseA, muscleB, primary) already stored,
the bulk-create submission selecting that same muscle as primary issues
its insert anyway — no count query guards this path — leaving two rows
with the identical triple. -/
theorem submitMulti_skips_duplicate_guard :
    0 < countDuplicates c5Db c5Values none ∧
    (submitMulti c5Db ("ea".toList) [2] [] 2).2 = true ∧
    countDuplicates (submitMulti c5Db ("ea".toList) [2] [] 2).1 c5Values none = 2 := by
  decide

/-- C5 (amended): on the single-record submission path, a nonzero
duplicate count rejects the submission with the "already exists" toast
and no insert or update; the count query excludes the row being edited,
so editing a row back to its own unchanged triple yields count zero and
the update is issued. The bulk-create path (`submitMulti`) performs its
inserts without this guard. -/
theorem duplicate_guard_on_single_submit
    (s : EMPageState) (values : FormValues) (storeRes : Except Unit JoinedRow)
    (db : List EMRow) (er : ExerciseMuscleRecord) (d : JoinedRow) (c : Nat) :
    (0 < c →
      emSubmit s values (Except.ok c) storeRes =
        ({ s with toasts := Toast.errAlreadyExists :: s.toasts }, StoreWrite.noWrite)) ∧
    ((∀ r' ∈ db, matchesTriple values r' = true → r'.id = er.id) →
      countDuplicates db values (some er.id) = 0) ∧
    (s.editing = some er →
      (emSubmit s values (Except.ok 0) (Except.ok d)).2 = StoreWrite.updated er.id values) := by
  refine ⟨fun hc => ?_, fun huniq => ?_, fun hedit => ?_⟩
  · have hdup : checkDuplicate (Except.ok c) = true := by
      unfold checkDuplicate
      simpa using hc
    unfold emSubmit
    rw [hdup]
    rfl
  · unfold countDuplicates
    rw [List.filter_eq_nil_iff.mpr]
    · rfl
    · intro r' hr'
      cases hm : matchesTriple values r' with
      | false => simp [hm]
      | true =>
          have hid : r'.id = er.id := huniq r' hr' hm
          simp [hm, hid]
  · have hdup : checkDuplicate (Except.ok 0) = false := by
      unfold checkDuplicate
      simp
    unfold emSubmit
    rw [hdup, hedit]
    rfl

/-- C5 witness: editing the stored (exerciseA, muscleB, primary) row back
to its own triple yields a zero duplicate count and an update is issued,
while a nonzero count (e.g. 1) rejects with no write. -/
theorem duplicate_guard_on_single_submit_witness :
    (emSubmit c5State c5Values (Except.ok 1) (Except.ok c5Joined) =
      ({ c5State with toasts := Toast.errAlreadyExists :: c5State.toasts },
        StoreWrite.noWrite)) ∧
    countDuplicates c5Db c5Values (some c5EditRecord.id) = 0 ∧
    (emSubmit c5State c5Values (Except.ok 0) (Except.ok c5Joined)).2 =
      StoreWrite.updated c5EditRecord.id c5Values :=
  ⟨(duplicate_guard_on_single_submit c5State c5Values (Except.ok c5Joined)
      c5Db c5EditRecord c5Joined 1).1 (by decide),
   (duplicate_guard_on_single_submit c5State c5Values (Except.ok c5Joined)
      c5Db c5EditRecord c5Joined 1).2.1 (by decide),
   (duplicate_guard_on_single_submit c5State c5Values (Except.ok c5Joined)
      c5Db c5EditRecord c5Joined 1).2.2 rfl⟩

/-- C6 counterexample: on the equipment page a store-level failure (error
response) still ends with the dialog closed — `setOpen(false)` runs
unconditionally — refuting "the modal dialog is closed only when the
store operation succeeds" for every entity page (the list is unchanged,
but no notification is surfaced either). -/
theorem equipment_dialog_closes_on_failure :
    (equipmentSubmit c6State c6Values (Except.error ())).dialogOpen = false ∧
    (equipmentSubmit c6State c6Values (Except.error ())).items = c6State.items := by
  decide

/-- C6 (amended): on the exercise-muscle page a store-level failure
surfaces an error notification, leaves the dialog open and the local list
unchanged, and the dialog closes only on success; on the equipment page a
store-level failure leaves the local list unchanged but the dialog is
closed unconditionally and no notification is shown. -/
theorem submit_failure_keeps_state
    (s : EMPageState) (values : FormValues) (c : Nat) (d : JoinedRow)
    (es : EqPageState) (ev : EqFormValues) :
    (checkDuplicate (Except.ok c) = false →
      (emSubmit s values (Except.ok c) (Except.error ())).1.dialogOpen = s.dialogOpen ∧
      (emSubmit s values (Except.ok c) (Except.error ())).1.records = s.records ∧
      (emSubmit s values (Except.ok c) (Except.error ())).2 = StoreWrite.noWrite ∧
      ((emSubmit s values (Except.ok c) (Except.error ())).1.toasts.head? =
          some Toast.errUpdate ∨
       (emSubmit s values (Except.ok c) (Except.error ())).1.toasts.head? =
          some Toast.errCreate)) ∧
    (checkDuplicate (Except.ok c) = false →
      (emSubmit s values (Except.ok c) (Except.ok d)).1.dialogOpen = false) ∧
    (equipmentSubmit es ev (Except.error ())).items = es.items ∧
    (equipmentSubmit es ev (Except.error ())).dialogOpen = false := by
  refine ⟨fun hdup => ?_, fun hdup => ?_, ?_, ?_⟩
  · unfold emSubmit
    rw [hdup]
    simp only [Bool.false_eq_true, if_false]
    cases s.editing with
    | none => simp [validateToasts]
    | some er => simp [validateToasts]
  · unfold emSubmit
    rw [hdup]
    simp only [Bool.false_eq_true, if_false]
    cases s.editing with
    | none => rfl
    | some er => rfl
  · unfold equipmentSubmit
    cases es.editing with
    | none => rfl
    | some e => rfl
  · unfold equipmentSubmit
    cases es.editing with
    | none => rfl
    | some e => rfl

/-- C6 witness: with a clean duplicate count, a failing update on the
exercise-muscle page keeps the dialog open and the records unchanged,
and the failing equipment submission keeps its items. -/
theorem submit_failure_keeps_state_witness :
    (emSubmit c5State c5Values (Except.ok 0) (Except.error ())).1.dialogOpen =
      c5State.dialogOpen ∧
    (emSubmit c5State c5Values (Except.ok 0) (Except.error ())).1.records =
      c5State.records ∧
    (emSubmit c5State c5Values (Except.ok 0) (Except.ok c5Joined)).1.dialogOpen = false ∧
    (equipmentSubmit c6State c6Values (Except.error ())).items = c6State.items :=
  ⟨((submit_failure_keeps_state c5State c5Values 0 c5Joined c6State c6Values).1
      (by decide)).1,
   ((submit_failure_keeps_state c5State c5Values 0 c5Joined c6State c6Values).1
      (by decide)).2.1,
   (submit_failure_keeps_state c5State c5Values 0 c5Joined c6State c6Values).2.1
      (by decide),
   (submit_failure_keeps_state c5State c5Values 0 c5Joined c6State c6Values).2.2.1⟩

/-- C7: after a successful update the edited record carries the submitted
values (on the equipment page the patched entry is literally the
submitted name; on the exercise-muscle page it is the row the store
returned for the update, whose fields equal the submitted triple whenever
the store echoes it), and every other record — any index whose id
differs — is unchanged, in the same position. -/
theorem update_patches_only_edited
    (items : List Equipment) (e : Equipment) (values : EqFormValues)
    (dOpen : Bool) (d : Equipment) (k : Nat) (p : Equipment)
    (hk : items[k]? = some p)
    (s : EMPageState) (mv : FormValues) (er : ExerciseMuscleRecord) (jd : JoinedRow)
    (j : Nat) (q : ExerciseMuscleRecord) (hj : s.records[j]? = some q)
    (hedit : s.editing = some er) :
    (equipmentSubmit { items := items, dialogOpen := dOpen, editing := some e }
        values (Except.ok d)).items.length = items.length ∧
    (p.id = e.id →
      (equipmentSubmit { items := items, dialogOpen := dOpen, editing := some e }
          values (Except.ok d)).items[k]? =
        some { id := values.id.getD p.id, name := values.name }) ∧
    (p.id ≠ e.id →
      (equipmentSubmit { items := items, dialogOpen := dOpen, editing := some e }
          values (Except.ok d)).items[k]? = some p) ∧
    (emSubmit s mv (Except.ok 0) (Except.ok jd)).1.records.length =
      s.records.length ∧
    (q.id = er.id →
      (emSubmit s mv (Except.ok 0) (Except.ok jd)).1.records[j]? =
        some (mapRecord jd)) ∧
    (q.id ≠ er.id →
      (emSubmit s mv (Except.ok 0) (Except.ok jd)).1.records[j]? = some q) := by
  have heqis : (equipmentSubmit { items := items, dialogOpen := dOpen, editing := some e }
      values (Except.ok d)).items = items.map (fun (pp : Equipment) =>
        if pp.id = e.id then { id := values.id.getD pp.id, name := values.name } else pp) := rfl
  have hdup : checkDuplicate (Except.ok 0) = false := by
    unfold checkDuplicate
    simp
  have hemr : (emSubmit s mv (Except.ok 0) (Except.ok jd)).1.records =
      s.records.map (fun item => if item.id = er.id then mapRecord jd else item) := by
    unfold emSubmit
    rw [hdup, hedit]
    rfl
  refine ⟨?_, fun hpe => ?_, fun hpe => ?_, ?_, fun hqe => ?_, fun hqe => ?_⟩
  · rw [heqis, List.length_map]
  · rw [heqis, List.getElem?_map, hk, Option.map_some']
    rw [if_pos hpe]
  · rw [heqis, List.getElem?_map, hk, Option.map_some']
    rw [if_neg hpe]
  · rw [hemr, List.length_map]
  · rw [hemr, List.getElem?_map, hj, Option.map_some']
    rw [if_pos hqe]
  · rw [hemr, List.getElem?_map, hj, Option.map_some']
    rw [if_neg hqe]

/-- C7 witness: updating equipment id 2 in the two-item list patches only
that entry to the submitted name and leaves id 3 untouched. -/
theorem update_patches_only_edited_witness :
    (equipmentSubmit ⟨c7Items, true, some ⟨2, "banda".toList⟩⟩ c7Values
      (Except.ok c6Item)).items[0]? = some ⟨2, "disco".toList⟩ ∧
    (equipmentSubmit ⟨c7Items, true, some ⟨2, "banda".toList⟩⟩ c7Values
      (Except.ok c6Item)).items[1]? = some ⟨3, "soga".toList⟩ :=
  ⟨(update_patches_only_edited c7Items ⟨2, "banda".toList⟩ c7Values
      true c6Item 0 ⟨2, "banda".toList⟩ (by decide)
      c5State c5Values c5EditRecord c5Joined 0 c5EditRecord (by decide) rfl).2.1 rfl,
   (update_patches_only_edited c7Items ⟨2, "banda".toList⟩ c7Values
      true c6Item 1 ⟨3, "soga".toList⟩ (by decide)
      c5State c5Values c5EditRecord c5Joined 0 c5EditRecord (by decide) rfl).2.2.1
      (by decide)⟩

/-- C8: the relation normalizer maps a single related object to that
object, a single-element collection to its element, and an absent value
(null / undefined, or an empty collection) to no record — always zero or
one related record. -/
theorem normalizeRelation_zero_or_one {α : Type} (v : α) :
    normalizeRelation (JoinValue.obj v) = some v ∧
    normalizeRelation (JoinValue.arr [v]) = some v ∧
    normalizeRelation (JoinValue.null : JoinValue α) = none ∧
    normalizeRelation (JoinValue.arr ([] : List α)) = none :=
  ⟨rfl, rfl, rfl, rfl⟩

theorem stepToggle_disjoint (s : MuscleSelection) (a : ToggleAction)
    (h : selDisjoint s) : selDisjoint (stepToggle s a) := by
  cases a with
  | togglePrimary m c =>
      intro x hx hmemsec
      have hsec := List.mem_filter.mp hmemsec
      have hxne : x ≠ m := by
        have := hsec.2
        simp only [Bool.not_eq_eq_eq_not, Bool.not_true, decide_eq_false_iff_not] at this
        exact this
      cases c with
      | true =>
          simp only [stepToggle, handlePrimaryToggle, if_pos] at hx
          rcases List.mem_append.mp hx with hxp | hxm
          · exact h x hxp hsec.1
          · simp at hxm
            exact hxne hxm
      | false =>
          simp only [stepToggle, handlePrimaryToggle] at hx
          rw [if_neg (by simp)] at hx
          exact h x (List.mem_filter.mp hx).1 hsec.1
  | toggleSecondary m c =>
      intro x hx hmemsec
      have hxp := List.mem_filter.mp hx
      have hxne : x ≠ m := by
        have := hxp.2
        simp only [Bool.not_eq_eq_eq_not, Bool.not_true, decide_eq_false_iff_not] at this
        exact this
      cases c with
      | true =>
          simp only [stepToggle, handleSecondaryToggle, if_pos] at hmemsec
          rcases List.mem_append.mp hmemsec with hxs | hxm
          · exact h x hxp.1 hxs
          · simp at hxm
            exact hxne hxm
      | false =>
          simp only [stepToggle, handleSecondaryToggle] at hmemsec
          rw [if_neg (by simp)] at hmemsec
          exact h x hxp.1 (List.mem_filter.mp hmemsec).1

theorem foldl_stepToggle_disjoint (acts : List ToggleAction) (s : MuscleSelection)
    (h : selDisjoint s) : selDisjoint (acts.foldl stepToggle s) := by
  induction acts generalizing s with
  | nil => exact h
  | cons a rest ih => exact ih (stepToggle s a) (stepToggle_disjoint s a h)

/-- C9: after every sequence of primary/secondary checkbox toggles from
the empty selection, the selected primary and secondary muscle sets are
disjoint — no muscle id appears in both. -/
theorem selections_stay_disjoint (acts : List ToggleAction) :
    selDisjoint (runToggles acts) := by
  apply foldl_stepToggle_disjoint
  intro x hx
  simp at hx

/-- C9 witness: after checking muscle 5 as primary, it is not in the
secondary selection. -/
theorem selections_stay_disjoint_witness :
    (5 : Int) ∉ (runToggles [ToggleAction.togglePrimary 5 true]).secondary :=
  selections_stay_disjoint [ToggleAction.togglePrimary 5 true] 5 (by decide)

/-- C10: when the duplicate count query itself fails, `checkDuplicate`
reports true and the submission is blocked exactly as a duplicate would
be: no insert or update is issued, the local list (and the dialog) is
unchanged, and the "already exists" rejection toast is emitted. -/
theorem count_error_fails_closed (s : EMPageState) (values : FormValues)
    (storeRes : Except Unit JoinedRow) :
    checkDuplicate (Except.error ()) = true ∧
    (emSubmit s values (Except.error ()) storeRes).1.records = s.records ∧
    (emSubmit s values (Except.error ()) storeRes).1.dialogOpen = s.dialogOpen ∧
    (emSubmit s values (Except.error ()) storeRes).2 = StoreWrite.noWrite ∧
    Toast.errAlreadyExists ∈ (emSubmit s values (Except.error ()) storeRes).1.toasts := by
  refine ⟨rfl, rfl, rfl, rfl, ?_⟩
  show Toast.errAlreadyExists ∈
    Toast.errAlreadyExists :: (validateToasts (Except.error ()) ++ s.toasts)
  exact List.mem_cons_self _ _
